import Mathlib

/-!
Verification of rdavid/cbase (src/base.c, include/base.h).

The repository provides three stateless runtime helpers:
  * `print_to_string` (spec name `format_to_buffer`): a bounded formatted
    print wrapping `vsnprintf`, with an all-or-nothing truncation policy;
  * `strerror_r_improved` (spec name `describe_error`), here its portability
    fallback branch (the `#else` branch of the platform conditional), which
    the claims reference;
  * `humanized_timestamp` (spec name `format_timestamp`).

Embedding conventions.  A caller-owned buffer is the byte contents of the
memory region behind the `char *` pointer, modelled as `List Nat` (one `Nat`
per byte, `0` the null terminator).  The host leaf facilities — `vsnprintf`,
`strerror_r`, `time`/`localtime_r`/`strftime` — are not repository code;
they are modelled from their C-standard contracts, with their data-dependent
outcomes (the rendered text, the host return code, the converted calendar
time) passed in as explicit parameters so that every repository function is
a pure Lean function of its inputs.
-/

namespace CBase

/-- Bytes of the memory region a C `char *` points to. -/
abbrev Byte := Nat

/-- The null terminator byte. -/
def nul : Byte := 0

/-- Store the bytes `s` at the start of the memory region `mem`, leaving the
rest of the region unchanged.  Bytes of `s` that would land past the end of
the region are dropped (the region is all the memory we model). -/
def writeBytes (mem s : List Byte) : List Byte :=
  s.take mem.length ++ mem.drop s.length

/-- The C string stored at the start of a memory region: the bytes up to
(excluding) the first null terminator. -/
def cstring (mem : List Byte) : List Byte :=
  mem.takeWhile (fun b => b != nul)

/-- Outcome of one `vsnprintf` formatting request, modelled from the C
standard contract of the engine: `ok s` means the template and arguments
render to the byte sequence `s` (the would-be output, of would-be length
`s.length`); `error left ret` means the engine reports an encoding/argument
error by returning the negative value `ret`, leaving the memory region in
the unspecified state `left`. -/
inductive EngineOutcome where
  | ok (s : List Byte)
  | error (left : List Byte) (ret : Int)
deriving DecidableEq

/-- Model of the host `vsnprintf(str, len, fmt, ap)` acting on the memory
region `mem` behind `str`, from its C-standard contract: on success it
returns the would-be length and, when `len > 0`, writes the first
`len - 1` rendered bytes followed by a null terminator (when `len = 0` it
writes nothing); on failure it returns the engine's negative value with the
region in the state the engine left it. -/
def vsnprintf (mem : List Byte) (len : Nat) (out : EngineOutcome) :
    List Byte × Int :=
  match out with
  | .ok s =>
      if len = 0 then (mem, (s.length : Int))
      else (writeBytes mem (s.take (len - 1) ++ [nul]), (s.length : Int))
  | .error left ret => (left, ret)

/-- Embedding of `print_to_string` (src/base.c:13-37), the spec's
`format_to_buffer`.  It calls `vsnprintf`; if the result `num` is negative
it returns `-1`; if `(size_t)num >= len` it stores `str[0] = '\0'` and
returns `-1`; otherwise it returns `num`.  The returned pair is the final
state of the memory region and the C return value. -/
def print_to_string (mem : List Byte) (len : Nat) (out : EngineOutcome) :
    List Byte × Int :=
  let r := vsnprintf mem len out
  if r.2 < 0 then (r.1, -1)
  else if (len : Int) ≤ r.2 then (writeBytes r.1 [nul], -1)
  else (r.1, r.2)

/-- Decimal rendering of a natural number by the host engine's `%u`/`%d`
conversion, modelled from the C standard (most significant digit first,
ASCII digit bytes). -/
def renderDec (n : Nat) : List Byte :=
  (Nat.toDigits 10 n).map Char.toNat

/-- Decimal rendering of a C `int` by the host engine's `%d` conversion,
modelled from the C standard (a `-` sign byte for negative values). -/
def renderDecInt (i : Int) : List Byte :=
  if i < 0 then 45 :: renderDec i.natAbs else renderDec i.toNat

/-- The bytes of the static literal `"unknown error"` in
`strerror_r_improved`. -/
def unknownStr : List Byte :=
  ("unknown error".toList).map Char.toNat

/-- The rendering of the fallback template `"%s %d"` applied to the
arguments `"unknown error"` and `err`, i.e. the synthetic message
`unknown error <code>`. -/
def renderUnknown (err : Int) : List Byte :=
  unknownStr ++ [32] ++ renderDecInt err

/-- Which pointer `strerror_r_improved` returns: the caller's buffer `str`,
or the static literal `"unknown error"`. -/
inductive ErrPtr where
  | bufferPtr
  | staticUnknown
deriving DecidableEq

/-- Embedding of the portability-fallback branch of `strerror_r_improved`
(src/base.c:43-52), the spec's `describe_error`.  The host `strerror_r`
call is modelled from its XSI contract by the pair `host`: its return code
and the state it leaves the memory region in (on success, `host.1 = 0`,
the region starts with the host's description).  If the host call fails
(`rc != 0`) the function synthesizes `"unknown error <code>"` via
`print_to_string`; it returns `str` iff the final `rc` is nonnegative,
else the static literal. -/
def strerror_r_improved (err : Int) (len : Nat) (host : Int × List Byte) :
    ErrPtr × List Byte :=
  if host.1 ≠ 0 then
    let r := print_to_string host.2 len (.ok (renderUnknown err))
    (if 0 ≤ r.2 then ErrPtr.bufferPtr else ErrPtr.staticUnknown, r.1)
  else (ErrPtr.bufferPtr, host.2)

/-- The C string the caller can read through the pointer
`strerror_r_improved` returned. -/
def errResultString : ErrPtr × List Byte → List Byte
  | (.bufferPtr, mem) => cstring mem
  | (.staticUnknown, _) => unknownStr

/-- Which pointer `humanized_timestamp` returns: the caller's buffer `str`,
or the static literal `"error"`. -/
inductive TimePtr where
  | bufferPtr
  | staticError
deriving DecidableEq

/-- Model of the host `strftime(str, len, "%c", ptm)` from its C-standard
contract: `rendered` is the text the conversion specification produces for
the given calendar time; if it fits together with its null terminator
(`rendered.length + 1 <= len`) it is written and its length returned,
otherwise nothing is guaranteed about the region and `0` is returned. -/
def strftime_c (mem : List Byte) (len : Nat) (rendered : List Byte) :
    List Byte × Nat :=
  if rendered.length + 1 ≤ len then
    (writeBytes mem (rendered ++ [nul]), rendered.length)
  else (mem, 0)

/-- Embedding of `humanized_timestamp` (src/base.c:54-73), the spec's
`format_timestamp`.  The clock read and the thread-safe local-time
conversion `localtime_r` are modelled by `localRender`: `none` when the
conversion fails (returns `NULL`), `some rendered` when it succeeds and the
`"%c"` rendering of the obtained calendar time is `rendered`.  On
conversion failure, or when `strftime` reports `0` bytes, the static
literal `"error"` is returned; otherwise the caller's buffer. -/
def humanized_timestamp (mem : List Byte) (len : Nat)
    (localRender : Option (List Byte)) : TimePtr × List Byte :=
  match localRender with
  | none => (TimePtr.staticError, mem)
  | some rendered =>
      let r := strftime_c mem len rendered
      if r.2 = 0 then (TimePtr.staticError, r.1) else (TimePtr.bufferPtr, r.1)

/-- The fixed layout `Www Mmm dd hh:mm:ss yyyy` of the default date-time
representation: 24 printable (hence nonzero) bytes with space separators
after the weekday, month, day and seconds fields and colons inside the
time-of-day field. -/
def layoutC (s : List Byte) : Prop :=
  s.length = 24 ∧ (∀ b ∈ s, b ≠ nul) ∧
  s[3]? = some 32 ∧ s[7]? = some 32 ∧ s[10]? = some 32 ∧
  s[13]? = some 58 ∧ s[16]? = some 58 ∧ s[19]? = some 32

instance (s : List Byte) : Decidable (layoutC s) := by
  unfold layoutC; infer_instance

/-! Helper lemmas about the memory model. -/

theorem writeBytes_length (mem s : List Byte) :
    (writeBytes mem s).length = mem.length := by
  unfold writeBytes
  simp only [List.length_append, List.length_take, List.length_drop]
  omega

theorem writeBytes_of_le (mem s : List Byte) (h : s.length ≤ mem.length) :
    writeBytes mem s = s ++ mem.drop s.length := by
  unfold writeBytes
  rw [List.take_of_length_le h]

theorem writeBytes_head (mem : List Byte) (x : Byte) (s : List Byte)
    (h : mem ≠ []) : (writeBytes mem (x :: s)).head? = some x := by
  cases mem with
  | nil => exact absurd rfl h
  | cons m ms => simp [writeBytes, List.take_succ_cons]

theorem cstring_append_nul (s t : List Byte) (h : ∀ b ∈ s, b ≠ nul) :
    cstring (s ++ nul :: t) = s := by
  unfold cstring
  rw [List.takeWhile_append_of_pos, List.takeWhile_cons_of_neg] <;> simp
  intro a ha
  simpa [nul] using h a ha

theorem cstring_ne_nil_of_head (mem : List Byte) (b : Byte)
    (hh : mem.head? = some b) (hb : b ≠ nul) : cstring mem ≠ [] := by
  cases mem with
  | nil => simp at hh
  | cons m ms =>
      simp only [List.head?_cons, Option.some.injEq] at hh
      subst hh
      have hm : (m != nul) = true := by simpa using hb
      simp [cstring, List.takeWhile_cons, hm]

/-! Characterizations of `print_to_string` on the three paths of the code. -/

theorem print_to_string_ok_lt (mem s : List Byte) (len : Nat)
    (hlen : s.length < len) :
    print_to_string mem len (.ok s) =
      (writeBytes mem (s ++ [nul]), (s.length : Int)) := by
  have h0 : ¬ len = 0 := by omega
  have h1 : ¬ ((s.length : Int) < 0) := by omega
  have h2 : ¬ ((len : Int) ≤ (s.length : Int)) := by omega
  have h3 : s.take (len - 1) = s := List.take_of_length_le (by omega)
  simp [print_to_string, vsnprintf, h0, h1, h2, h3]

theorem print_to_string_ok_ge (mem s : List Byte) (len : Nat)
    (hlen : len ≤ s.length) :
    print_to_string mem len (.ok s) =
      (writeBytes (vsnprintf mem len (.ok s)).1 [nul], -1) := by
  have h1 : ¬ ((s.length : Int) < 0) := by omega
  have h2 : (len : Int) ≤ (s.length : Int) := by omega
  by_cases h0 : len = 0 <;> simp [print_to_string, vsnprintf, h0, h1, h2]

theorem print_to_string_ge_resets (mem s : List Byte) (len : Nat)
    (hmem : mem ≠ []) (hlen : len ≤ s.length) :
    (print_to_string mem len (.ok s)).2 = -1 ∧
    (print_to_string mem len (.ok s)).1.head? = some nul := by
  rw [print_to_string_ok_ge mem s len hlen]
  refine ⟨rfl, writeBytes_head _ nul [] ?_⟩
  have h1 : (vsnprintf mem len (.ok s)).1.length = mem.length := by
    by_cases h0 : len = 0 <;> simp [vsnprintf, h0, writeBytes_length]
  intro hnil
  rw [hnil] at h1
  exact hmem (List.eq_nil_of_length_eq_zero h1.symm)

/-! Theorems settling the claims. -/

/-- C1: for every buffer, capacity `len` and template/args whose rendered
would-be length `L = s.length` satisfies `L >= len`, `print_to_string`
(spec `format_to_buffer`) returns `-1` and stores the null terminator at
`buffer[0]`, so no partially-written content is visible to the caller. -/
theorem print_to_string_truncation_resets (mem s : List Byte) (len : Nat)
    (hmem : mem ≠ []) (hlen : len ≤ s.length) :
    (print_to_string mem len (.ok s)).2 = -1 ∧
    (print_to_string mem len (.ok s)).1.head? = some nul :=
  print_to_string_ge_resets mem s len hmem hlen

/-- Witness for C1 at a concrete input: buffer `[65]`, capacity 1,
rendered text `[97, 98]` of length 2. -/
theorem print_to_string_truncation_resets_witness :
    ([65] : List Byte) ≠ [] ∧ 1 ≤ ([97, 98] : List Byte).length ∧
    ((print_to_string [65] 1 (.ok [97, 98])).2 = -1 ∧
      (print_to_string [65] 1 (.ok [97, 98])).1.head? = some nul) :=
  ⟨by decide, by decide,
    print_to_string_truncation_resets [65] [97, 98] 1 (by decide) (by decide)⟩

/-- C2: for every capacity `len > 0` and rendered text `s` with
`s.length < len` (and a memory region of at least `len` bytes, the caller's
contract), `print_to_string` returns `s.length` and the buffer holds
exactly `s` followed by a null terminator (the rest of the region is
untouched); moreover the two concrete scenarios hold:
`format_to_buffer(buf, 6, "%d", 12345)` returns 5 with `buf == "12345"`,
and `format_to_buffer(buf, 5, "%d", 12345)` returns -1 with `buf == ""`. -/
theorem print_to_string_success_exact (mem s : List Byte) (len : Nat)
    (hlt : s.length < len) (hcap : len ≤ mem.length) :
    ((print_to_string mem len (.ok s)).2 = (s.length : Int) ∧
      (print_to_string mem len (.ok s)).1 =
        s ++ nul :: mem.drop (s.length + 1)) ∧
    print_to_string (List.replicate 6 0) 6 (.ok (renderDec 12345)) =
      ([49, 50, 51, 52, 53, 0], 5) ∧
    ((print_to_string (List.replicate 5 0) 5 (.ok (renderDec 12345))).2 = -1 ∧
      cstring (print_to_string (List.replicate 5 0) 5
        (.ok (renderDec 12345))).1 = []) := by
  refine ⟨?_, by decide, by decide⟩
  rw [print_to_string_ok_lt mem s len hlt]
  refine ⟨rfl, ?_⟩
  rw [writeBytes_of_le mem (s ++ [nul]) (by simp; omega)]
  simp

/-- Witness for C2 at a concrete input: buffer of 6 zero bytes, capacity 6,
rendered text `"12345"`. -/
theorem print_to_string_success_exact_witness :
    (renderDec 12345).length < 6 ∧ 6 ≤ (List.replicate 6 (0 : Byte)).length ∧
    (((print_to_string (List.replicate 6 0) 6 (.ok (renderDec 12345))).2 =
        ((renderDec 12345).length : Int) ∧
      (print_to_string (List.replicate 6 0) 6 (.ok (renderDec 12345))).1 =
        renderDec 12345 ++
          nul :: (List.replicate 6 0).drop ((renderDec 12345).length + 1)) ∧
    print_to_string (List.replicate 6 0) 6 (.ok (renderDec 12345)) =
      ([49, 50, 51, 52, 53, 0], 5) ∧
    ((print_to_string (List.replicate 5 0) 5 (.ok (renderDec 12345))).2 = -1 ∧
      cstring (print_to_string (List.replicate 5 0) 5
        (.ok (renderDec 12345))).1 = [])) :=
  ⟨by decide, by decide,
    print_to_string_success_exact (List.replicate 6 0) (renderDec 12345) 6
      (by decide) (by decide)⟩

/-- C3: the code evaluated at the failing input.  With capacity 0 and a
successfully rendered text, `print_to_string` does write through the buffer
pointer: the truncation branch executes `str[0] = '\0'` (the engine's
nonnegative would-be length is always `>= 0 == len`), changing the one-byte
region `[65]` to `[0]` even though capacity 0 permits no write at all. -/
theorem print_to_string_zero_capacity_writes :
    print_to_string [65] 0 (.ok [97]) = ([0], -1) ∧
    (print_to_string [65] 0 (.ok [97])).1 ≠ [65] := by
  decide

/-- C4: if the formatting engine reports a negative would-be length,
`print_to_string` returns `-1` and leaves the memory region exactly as the
engine left it. -/
theorem print_to_string_engine_error (mem left : List Byte) (len : Nat)
    (ret : Int) (h : ret < 0) :
    print_to_string mem len (.error left ret) = (left, -1) := by
  simp only [print_to_string, vsnprintf]
  rw [if_pos h]

/-- Witness for C4 at a concrete input: engine error with return `-7`
leaving the region as `[2]`. -/
theorem print_to_string_engine_error_witness :
    (-7 : Int) < 0 ∧ print_to_string [1] 3 (.error [2] (-7)) = ([2], -1) :=
  ⟨by decide, print_to_string_engine_error [1] [2] 3 (-7) (by decide)⟩

/-- C5: `strerror_r_improved` (spec `describe_error`) returns the static
literal `"unknown error"` exactly when the host error-description call
fails (nonzero status) and the fallback synthesis of
`"unknown error <code>"` also fails (negative `print_to_string` result);
in every other case it returns the caller's buffer pointer. -/
theorem strerror_r_improved_ptr_classification (err : Int) (len : Nat)
    (host : Int × List Byte) :
    (strerror_r_improved err len host).1 = ErrPtr.staticUnknown ↔
      host.1 ≠ 0 ∧
        (print_to_string host.2 len (.ok (renderUnknown err))).2 < 0 := by
  unfold strerror_r_improved
  by_cases h : host.1 ≠ 0 <;> simp [h]

/-- C6: `strerror_r_improved` never yields an empty string, for any
integer error code, provided the capacity is at least the length of
`"unknown error <code>"` plus one (and the memory region holds at least
`len` bytes; on the host-success path the host's own contract — a
successful `strerror_r` leaves a nonempty description — is assumed as a
hypothesis). -/
theorem strerror_r_improved_never_empty (err : Int) (len : Nat)
    (host : Int × List Byte)
    (hcap : (renderUnknown err).length + 1 ≤ len)
    (hmem : len ≤ host.2.length)
    (hhost : host.1 = 0 → cstring host.2 ≠ []) :
    errResultString (strerror_r_improved err len host) ≠ [] := by
  by_cases h : host.1 = 0
  · have hr : strerror_r_improved err len host = (ErrPtr.bufferPtr, host.2) := by
      simp [strerror_r_improved, h]
    rw [hr]
    exact hhost h
  · have hlt : (renderUnknown err).length < len := by omega
    have hps := print_to_string_ok_lt host.2 (renderUnknown err) len hlt
    have hnn : (0 : Int) ≤ ((renderUnknown err).length : Int) := by omega
    have hr : strerror_r_improved err len host =
        (ErrPtr.bufferPtr, writeBytes host.2 (renderUnknown err ++ [nul])) := by
      simp [strerror_r_improved, h, hps, hnn]
    rw [hr]
    show cstring (writeBytes host.2 (renderUnknown err ++ [nul])) ≠ []
    obtain ⟨t, ht⟩ : ∃ t, renderUnknown err ++ [nul] = 117 :: t := by
      refine ⟨unknownStr.tail ++ [32] ++ renderDecInt err ++ [nul], ?_⟩
      have hu : unknownStr = 117 :: unknownStr.tail := by decide
      simp only [renderUnknown]
      rw [hu]
      simp
    rw [ht]
    refine cstring_ne_nil_of_head _ 117 (writeBytes_head _ _ _ ?_) (by decide)
    intro hnil
    rw [hnil] at hmem
    simp at hmem
    omega

/-- Witness for C6 at a concrete input: error code 9999, capacity 32, a
32-byte zeroed region, host failure status 22. -/
theorem strerror_r_improved_never_empty_witness :
    (renderUnknown 9999).length + 1 ≤ 32 ∧
    32 ≤ (List.replicate 32 (0 : Byte)).length ∧
    ((22 : Int) = 0 → cstring (List.replicate 32 (0 : Byte)) ≠ []) ∧
    errResultString (strerror_r_improved 9999 32 (22, List.replicate 32 0)) ≠
      [] :=
  ⟨by decide, by decide, by decide,
    strerror_r_improved_never_empty 9999 32 (22, List.replicate 32 0)
      (by decide) (by decide) (by decide)⟩

/-- C7: `humanized_timestamp` (spec `format_timestamp`) with a successful
local-time conversion whose default representation `rendered` has the
fixed 24-byte layout `Www Mmm dd hh:mm:ss yyyy`, and capacity at least 25,
returns the caller's buffer holding exactly that non-empty, layout-matching
string; it returns the static literal `"error"` whenever the local-time
conversion fails, and whenever the rendering does not fit the capacity
(so `strftime` reports zero bytes). -/
theorem humanized_timestamp_spec (mem rendered : List Byte) (len : Nat)
    (hfmt : layoutC rendered) (hcap : 25 ≤ len) (hmem : len ≤ mem.length) :
    ((humanized_timestamp mem len (some rendered)).1 = TimePtr.bufferPtr ∧
      cstring (humanized_timestamp mem len (some rendered)).2 = rendered ∧
      cstring (humanized_timestamp mem len (some rendered)).2 ≠ [] ∧
      layoutC (cstring (humanized_timestamp mem len (some rendered)).2)) ∧
    (∀ (m : List Byte) (l : Nat),
      (humanized_timestamp m l none).1 = TimePtr.staticError) ∧
    (∀ (m r : List Byte) (l : Nat), l < r.length + 1 →
      (humanized_timestamp m l (some r)).1 = TimePtr.staticError) := by
  have hlen24 : rendered.length = 24 := hfmt.1
  have hnz : ∀ b ∈ rendered, b ≠ nul := hfmt.2.1
  have hfit : rendered.length + 1 ≤ len := by omega
  have hne : rendered.length ≠ 0 := by omega
  have hst : strftime_c mem len rendered =
      (writeBytes mem (rendered ++ [nul]), rendered.length) := by
    simp [strftime_c, hfit]
  have hts : humanized_timestamp mem len (some rendered) =
      (TimePtr.bufferPtr, writeBytes mem (rendered ++ [nul])) := by
    simp only [humanized_timestamp]
    rw [hst]
    simp [hne]
  have hw : writeBytes mem (rendered ++ [nul]) =
      rendered ++ nul :: mem.drop (rendered.length + 1) := by
    rw [writeBytes_of_le mem (rendered ++ [nul]) (by simp; omega)]
    simp
  have hcs : cstring (humanized_timestamp mem len (some rendered)).2 =
      rendered := by
    rw [hts]
    show cstring (writeBytes mem (rendered ++ [nul])) = rendered
    rw [hw]
    exact cstring_append_nul rendered _ hnz
  refine ⟨⟨by rw [hts], hcs, ?_, ?_⟩, fun m l => rfl, fun m r l hl => ?_⟩
  · rw [hcs]
    intro hnil
    rw [hnil] at hlen24
    simp at hlen24
  · rw [hcs]
    exact ⟨hlen24, hnz, hfmt.2.2⟩
  · have hnofit : ¬ (r.length + 1 ≤ l) := by omega
    simp [humanized_timestamp, strftime_c, hnofit]

/-- Witness for C7 at a concrete input: a 25-byte zeroed region, capacity
25, and the rendering `"Mon Feb 17 13:22:05 2020"`. -/
theorem humanized_timestamp_spec_witness :
    layoutC (("Mon Feb 17 13:22:05 2020".toList).map Char.toNat) ∧
    25 ≤ 25 ∧ 25 ≤ (List.replicate 25 (0 : Byte)).length ∧
    (((humanized_timestamp (List.replicate 25 0) 25
        (some (("Mon Feb 17 13:22:05 2020".toList).map Char.toNat))).1 =
          TimePtr.bufferPtr ∧
      cstring (humanized_timestamp (List.replicate 25 0) 25
        (some (("Mon Feb 17 13:22:05 2020".toList).map Char.toNat))).2 =
          ("Mon Feb 17 13:22:05 2020".toList).map Char.toNat ∧
      cstring (humanized_timestamp (List.replicate 25 0) 25
        (some (("Mon Feb 17 13:22:05 2020".toList).map Char.toNat))).2 ≠ [] ∧
      layoutC (cstring (humanized_timestamp (List.replicate 25 0) 25
        (some (("Mon Feb 17 13:22:05 2020".toList).map Char.toNat))).2)) ∧
    (∀ (m : List Byte) (l : Nat),
      (humanized_timestamp m l none).1 = TimePtr.staticError) ∧
    (∀ (m r : List Byte) (l : Nat), l < r.length + 1 →
      (humanized_timestamp m l (some r)).1 = TimePtr.staticError)) :=
  ⟨by decide, by decide, by decide,
    humanized_timestamp_spec (List.replicate 25 0)
      (("Mon Feb 17 13:22:05 2020".toList).map Char.toNat) 25
      (by decide) (by decide) (by decide)⟩

/-- C8: all three helpers are deterministic.  They keep no state between
calls, so two calls with componentwise-identical inputs — for the
timestamp function, identical clock/conversion outcomes, i.e. calls within
the same clock second — produce identical return values and identical
buffer contents. -/
theorem helpers_deterministic
    (mem1 mem2 : List Byte) (len1 len2 : Nat) (out1 out2 : EngineOutcome)
    (err1 err2 : Int) (elen1 elen2 : Nat) (host1 host2 : Int × List Byte)
    (tmem1 tmem2 : List Byte) (tlen1 tlen2 : Nat)
    (tr1 tr2 : Option (List Byte))
    (h1 : mem1 = mem2) (h2 : len1 = len2) (h3 : out1 = out2)
    (h4 : err1 = err2) (h5 : elen1 = elen2) (h6 : host1 = host2)
    (h7 : tmem1 = tmem2) (h8 : tlen1 = tlen2) (h9 : tr1 = tr2) :
    print_to_string mem1 len1 out1 = print_to_string mem2 len2 out2 ∧
    strerror_r_improved err1 elen1 host1 =
      strerror_r_improved err2 elen2 host2 ∧
    humanized_timestamp tmem1 tlen1 tr1 = humanized_timestamp tmem2 tlen2 tr2 := by
  subst h1; subst h2; subst h3; subst h4; subst h5; subst h6
  subst h7; subst h8; subst h9
  exact ⟨rfl, rfl, rfl⟩

/-- Witness for C8 at concrete inputs. -/
theorem helpers_deterministic_witness :
    print_to_string [0, 0] 2 (.ok [97]) = print_to_string [0, 0] 2 (.ok [97]) ∧
    strerror_r_improved 5 20 (1, List.replicate 20 0) =
      strerror_r_improved 5 20 (1, List.replicate 20 0) ∧
    humanized_timestamp [0] 1 none = humanized_timestamp [0] 1 none :=
  helpers_deterministic [0, 0] [0, 0] 2 2 (.ok [97]) (.ok [97]) 5 5 20 20
    (1, List.replicate 20 0) (1, List.replicate 20 0) [0] [0] 1 1 none none
    rfl rfl rfl rfl rfl rfl rfl rfl rfl

/-- C9: for every buffer and every engine outcome, `print_to_string` with
`len == 0` returns `-1`, never a would-be length; and whenever the engine
renders successfully (its would-be length is nonnegative, hence
`>= 0 == len`), the truncation branch stores a null terminator at
`buffer[0]`. -/
theorem print_to_string_zero_len (mem s : List Byte) (out : EngineOutcome)
    (hmem : mem ≠ []) :
    (print_to_string mem 0 out).2 = -1 ∧
    (print_to_string mem 0 (.ok s)).1.head? = some nul := by
  constructor
  · match out with
    | .ok t =>
        have h1 : ¬ ((t.length : Int) < 0) := by omega
        simp [print_to_string, vsnprintf, h1]
    | .error left ret =>
        by_cases h : ret < 0
        · simp [print_to_string, vsnprintf, h]
        · have h2 : (0 : Int) ≤ ret := by omega
          simp [print_to_string, vsnprintf, h, h2]
  · exact (print_to_string_ge_resets mem s 0 hmem (Nat.zero_le _)).2

/-- Witness for C9 at a concrete input: buffer `[65]`, rendered text
`[97]`. -/
theorem print_to_string_zero_len_witness :
    ([65] : List Byte) ≠ [] ∧
    ((print_to_string [65] 0 (.ok [97])).2 = -1 ∧
      (print_to_string [65] 0 (.ok [97])).1.head? = some nul) :=
  ⟨by decide, print_to_string_zero_len [65] [97] (.ok [97]) (by decide)⟩

/-- C10: in the portability-fallback build, `strerror_r_improved` never
returns a null pointer: for every error code, buffer and capacity the
returned pointer is the caller's buffer or the static literal
`"unknown error"` — the only two pointer values the return expression
`rc >= 0 ? str : unknown` can produce. -/
theorem strerror_r_improved_ptr_total (err : Int) (len : Nat)
    (host : Int × List Byte) :
    (strerror_r_improved err len host).1 = ErrPtr.bufferPtr ∨
    (strerror_r_improved err len host).1 = ErrPtr.staticUnknown := by
  unfold strerror_r_improved
  by_cases h : host.1 ≠ 0
  · simp only [if_pos h]
    by_cases h2 : 0 ≤ (print_to_string host.2 len (.ok (renderUnknown err))).2
    · exact Or.inl (by simp [h2])
    · exact Or.inr (by simp [h2])
  · simp [h]


